import Mathlib

/-!
Verification of the Sentinel Forge execution core against its
natural-language specification.

The development shallowly embeds the Python sources:

* `src/vector_utils.py` — pure-Python vector helpers (`dot`, `norm`,
  `normalize`, `cosine`), embedded over `ℝ` (Python floats are idealized as
  exact reals; `math.sqrt` becomes `Real.sqrt`).
* `src/sentinel_cognition.py` — the cognition graph: `QuantumAtom` metadata
  dictionaries, the twelve pipeline stages, the reflective-pool rolling
  window and its percentile estimator.
* `src/backend/service.py` — the service façade.  Its `QuantumNexusForge`
  delegate (pool scheduling, autoscaling, stress test, teardown) is imported
  from `quantum_nexus_forge_v5_2_enhanced`, which does not define it in the
  repository snapshot; those parts are modelled from the specification and
  are marked `Modelled from the spec:` below.

Modelling conventions, used throughout:

* Python `float` values are embedded as `ℚ` where the source only performs
  field operations on rational inputs, and as `ℝ` where `sqrt`/`log2` make
  values irrational.  Float rounding error is outside the model.
* `uuid`-generated identifiers are modelled by a deterministic fresh counter
  (`Gen.fresh`); `time.time()` by a monotone tick counter (`Gen.tick`).
  Freshness of an id means its serial number exceeds every serial in use.
* Python `dict` is an insertion-ordered association list over `String` keys.
* Environment variables (`QNF_USE_NUMPY`, `QNF_USE_PCA`, `QNF_EMB_DIM`) are
  unset in the modelled environment, so the NumPy/PCA branches are dead and
  the embedding dimension is the default 16.
-/

/-! ## Models of Python builtins -/

/-- the Python `round` builtin on an exact rational: round-half-to-even
(bankers rounding), as used by `pct` in `ReflectivePool.embed_metrics`. -/
def pythonRound (x : ℚ) : ℤ :=
  let f : ℤ := ⌊x⌋
  let frac : ℚ := x - f
  if frac < 1/2 then f
  else if 1/2 < frac then f + 1
  else if f % 2 = 0 then f else f + 1

/-- the Python `int()` truncation toward zero on an (idealized) float. -/
noncomputable def pyTrunc (x : ℝ) : ℤ :=
  if 0 ≤ x then ⌊x⌋ else ⌈x⌉

/-- the Python float `%` operator: `x % m = x - m * floor (x / m)` (result has
the sign of the divisor), on idealized reals. -/
noncomputable def realFmod (x m : ℝ) : ℝ :=
  x - m * ⌊x / m⌋

/-- the Python `str.lower`, modelled characterwise (`Char.toLower`). -/
def pyLower (s : String) : String :=
  String.map Char.toLower s

/-- the Python `str.split()` with no separator: split on whitespace runs and
drop empty pieces. -/
def pySplit (s : String) : List String :=
  (s.split (fun c => c = ' ' ∨ c = '\t' ∨ c = '\n' ∨ c = '\r')).filter (fun w => w ≠ "")

/-- the Python `needle in hay` substring test on strings. -/
def pyStrContains (needle hay : String) : Bool :=
  (List.range (hay.toList.length + 1)).any
    (fun i => needle.toList.isPrefixOf (hay.toList.drop i))

/-- the Python `s.split(sep, 1)[1]`: everything after the first occurrence of
the separator (used by `TopicIndexerNode` with `":"`). -/
def afterFirstColon (s : String) : String :=
  String.intercalate ":" ((s.splitOn ":").tail)

/-! ## `src/vector_utils.py`, pure-Python path

`QNF_USE_NUMPY` is not set in the modelled environment, so the NumPy branch
of every function is dead and only the pure-Python fallback is embedded.
`_to_list` maps `float` over a list, which is the identity on idealized
reals. -/

namespace VectorUtils

/-- Embeds `vector_utils.dot` (pure-Python path): `sum((a*b for a, b in
zip(u, v)), 0.0)`; `zip` truncates to the shorter list. -/
noncomputable def dot (u v : List ℝ) : ℝ :=
  (List.zipWith (fun a b => a * b) u v).sum

/-- Embeds `vector_utils.norm` (pure-Python path): `math.sqrt(dot(u, u))`. -/
noncomputable def norm (u : List ℝ) : ℝ :=
  Real.sqrt (dot u u)

/-- Embeds `vector_utils.normalize` (pure-Python path): returns `u` itself
when `norm(u) <= 0`, else divides every component by the norm. -/
noncomputable def normalize (u : List ℝ) : List ℝ :=
  if norm u ≤ 0 then u else u.map (fun x => x / norm u)

/-- Embeds `vector_utils.cosine`: the denominator is `norm u * norm v` when
both norms are positive and `0` otherwise, and a nonpositive denominator
short-circuits to `0`. -/
noncomputable def cosine (u v : List ℝ) : ℝ :=
  let du := dot u v
  let nu := norm u
  let nv := norm v
  let denom := if nu > 0 ∧ nv > 0 then nu * nv else 0
  if denom ≤ 0 then 0 else du / denom

end VectorUtils

/-! ## Python values and dictionaries

`QuantumAtom.metadata` and the payloads flowing through the cognition graph
are heterogeneous Python values.  `Value` is their embedding; `Dict` is an
insertion-ordered association list, with `dset`/`dget` mirroring Python
`d[k] = v` (update in place if the key exists, else append) and
`d.get(k)`. -/

inductive Value where
  | none
  | bool (b : Bool)
  | int (n : ℤ)
  | rat (q : ℚ)
  | real (r : ℝ)
  | str (s : String)
  | list (xs : List Value)
  | dict (entries : List (String × Value))

abbrev Dict := List (String × Value)

/-- Python `d[k] = v`: replace in place when the key is present (insertion
order kept), else append the new pair. -/
def dset (d : Dict) (k : String) (v : Value) : Dict :=
  if d.any (fun kv => kv.1 = k) then
    d.map (fun kv => if kv.1 = k then (k, v) else kv)
  else d ++ [(k, v)]

/-- Python `d.get(k)`. -/
def dget (d : Dict) (k : String) : Option Value :=
  (d.find? (fun kv => kv.1 = k)).map (fun kv => kv.2)

/-- Python `d.get(k, default)`. -/
def dgetD (d : Dict) (k : String) (dflt : Value) : Value :=
  (dget d k).getD dflt

/-- Python `d.keys()` (in insertion order). -/
def dkeys (d : Dict) : List String :=
  d.map (fun kv => kv.1)

/-- Numeric coercion of a Python value (used where the source applies float
arithmetic to metadata entries that are numbers by construction). -/
def Value.toR : Value → ℝ
  | .int n => (n : ℝ)
  | .rat q => (q : ℝ)
  | .real r => r
  | _ => 0

/-- Python `float(v or 0.0)` on a metadata entry holding a rational float. -/
def Value.toRatD (v : Value) (dflt : ℚ) : ℚ :=
  match v with
  | .rat q => q
  | .int n => (n : ℚ)
  | _ => dflt

/-- Reads a string-valued entry, with a default for other shapes. -/
def Value.toStrD (v : Value) (dflt : String) : String :=
  match v with
  | .str s => s
  | _ => dflt

/-- The string members of a Python list value (the source only builds
all-string lists where this is used). -/
def Value.toStrList : Value → List String
  | .list xs =>
      xs.filterMap (fun v => match v with
        | .str s => Option.some s
        | _ => Option.none)
  | _ => []

mutual

/-- the Python `str` builtin, modelled structurally.  Strings map to
themselves; container rendering is schematic and irrational-valued floats
render as a fixed token, since decimal float formatting is outside the
model (no claim depends on the rendering of non-string data). -/
def strOf : Value → String
  | .none => "None"
  | .bool b => if b then "True" else "False"
  | .int n => toString n
  | .rat q => toString q
  | .real _ => "float"
  | .str s => s
  | .list xs => "[" ++ strOfList xs ++ "]"
  | .dict d => "\x7b" ++ strOfDict d ++ "\x7d"

/-- Renders the elements of a list value, comma-separated. -/
def strOfList : List Value → String
  | [] => ""
  | [x] => strOf x
  | x :: xs => strOf x ++ ", " ++ strOfList xs

/-- Renders the entries of a dict value, comma-separated. -/
def strOfDict : List (String × Value) → String
  | [] => ""
  | [(k, v)] => k ++ ": " ++ strOf v
  | (k, v) :: rest => k ++ ": " ++ strOf v ++ ", " ++ strOfDict rest

end

/-! ## The rolling sample window of `ReflectivePool`

`src/sentinel_cognition.py`: the similarity-score statistics of
`ReflectivePool.embed_metrics` (lines 294–320) and the bounded memory of
`ReflectivePool.execute` (lines 274–277).  Similarity scores are Python
floats; the statistics are embedded over `ℚ` (the estimator only sorts,
indexes and averages, so exact rational arithmetic models it). -/

namespace ReflectivePool

/-- the Python `sorted` on a list of floats, modelled by a stable
ascending sort on `ℚ`. -/
def sortQ (scores : List ℚ) : List ℚ :=
  List.insertionSort (fun a b => a ≤ b) scores

/-- Embeds the helper `pct` inside `ReflectivePool.embed_metrics`:
`k = int(round((p / 100.0) * (n - 1)))`, clamped to `[0, n-1]`, indexing the
sorted sample list; `0.0` when the window is empty. -/
def pct (scores : List ℚ) (p : ℚ) : ℚ :=
  let scores_sorted := sortQ scores
  let n := scores.length
  if n = 0 then 0
  else
    let k : ℤ := pythonRound (p / 100 * ((n : ℚ) - 1))
    let k2 : ℤ := max 0 (min ((n : ℤ) - 1) k)
    scores_sorted.getD k2.toNat 0

/-- Embeds `avg = (sum(scores_sorted) / n) if n else 0.0` from
`ReflectivePool.embed_metrics`. -/
def mean (scores : List ℚ) : ℚ :=
  if scores.length = 0 then 0 else (sortQ scores).sum / scores.length

/-- Restates the specification wording for `percentile(p)`: sort the current
sample set and select the `round(p/100 * (n-1))`-th order statistic, with the
index clamped to `[0, n-1]`; an empty window yields 0. -/
def percentileSpec (scores : List ℚ) (p : ℚ) : ℚ :=
  if scores.length = 0 then 0
  else
    (sortQ scores).getD
      (max 0 (min ((scores.length : ℤ) - 1)
        (pythonRound (p / 100 * ((scores.length : ℚ) - 1))))).toNat 0

/-- Embeds the memory append of `ReflectivePool.execute` (lines 274–277):
`self._memory.append(entry)` followed by `self._memory.pop(0)` when
`len(self._memory) > self.capacity`.  The append/evict step is untyped in
the source, so the embedding is polymorphic in the entry type; it also
models `deque(maxlen=500)` appends for the similarity-score window. -/
def memAppend {α : Type} (capacity : ℕ) (mem : List α) (e : α) : List α :=
  let m := mem ++ [e]
  if m.length > capacity then m.tail else m

end ReflectivePool

/-! ## Spec-modelled pool core

`backend/service.py` delegates `process`, `create_pool`, `teardown_complete`,
`rebuild_from_foundation` and `stress_test` to a `QuantumNexusForge` imported
from `quantum_nexus_forge_v5_2_enhanced`; the module in the repository
snapshot does not define that class, so the pool core is modelled from the
specification (§2, §4.1–§4.4, §7). -/

/-- Modelled from the spec: the error taxonomy of §7 (`InvalidArgument`,
`AlreadyExists`, `NotFound`, `Inactive`) for the missing
`QuantumNexusForge` operations. -/
inductive QNFError where
  | invalidArgument
  | alreadyExists
  | notFound
  | inactive
  deriving DecidableEq

/-- Modelled from the spec: a WorkUnit (§3) — opaque id, arbitrary payload,
a stage tag is carried by the id derivation here. -/
structure WorkUnit where
  id : String
  payload : Value

/-- Modelled from the spec: one synthetic sub-stage of the missing
Processor — a new unit with a stage-tagged derived id and the prior payload
wrapped to indicate the stage applied (§4.1). -/
def subStageApply (tag : String) (u : WorkUnit) : WorkUnit :=
  { id := u.id ++ "_" ++ tag,
    payload := Value.dict [("stage", Value.str tag), ("payload", u.payload)] }

/-- Modelled from the spec: `execute` of the missing Processor — the fixed
three-stage pipeline ingest → transform → emit over a WorkUnit, plus the
completed-execution counter incremented by exactly 1 (§2, §4.1). -/
def nexusProcessorExecute (executionCount : ℕ) (u : WorkUnit) : ℕ × WorkUnit :=
  (executionCount + 1,
   subStageApply "emit" (subStageApply "transform" (subStageApply "ingest" u)))

/-- Modelled from the spec: the scale-up predicate of a Pool (§4.2) —
`maxLoad / (avgLoad + 1) > loadThreshold` over the effective
loads, with strict greater-than.  Effective loads are counts, embedded as
exact rationals for the division. -/
def scaleUpPredicate (loads : List ℚ) (loadThreshold : ℚ) : Bool :=
  let maxLoad := loads.foldl max 0
  let avgLoad := loads.sum / (loads.length : ℚ)
  decide (maxLoad / (avgLoad + 1) > loadThreshold)

/-- Modelled from the spec: `Pool.schedule` with no scaling routes each unit
to a chosen processor, whose completed-execution counter increments by
exactly 1 (§4.2, §8); a pool is a list of counters and an index chooses the
processor. -/
def scheduleBump (counters : List ℕ) (i : ℕ) : List ℕ :=
  counters.set i (counters.getD i 0 + 1)

/-- Modelled from the spec: a whole schedule sequence — each unit in turn is
routed to the processor named by the assignment. -/
def scheduleAll (counters : List ℕ) (assignment : List ℕ) : List ℕ :=
  assignment.foldl scheduleBump counters

/-- Modelled from the spec: the per-iteration success/failure tally of a
stress run (§4.4): `successes` and `failures` counted per iteration with
individual failures caught, never propagated. -/
structure StressOutcome where
  successes : ℕ
  failures : ℕ
  deriving DecidableEq

/-- Modelled from the spec: `stressTest(iterations, concurrent)` (§4.4, §7)
— fails with `InvalidArgument` iff `iterations < 0`; otherwise every
iteration runs, its individual failure (the oracle `ok` says which
iterations fail) is caught and tallied, and the batch itself returns
normally.  The `concurrent` flag changes scheduling, not the accounting, so
the tally model is shared by both modes. -/
def stressTest (iterations : ℤ) (ok : ℕ → Bool) : Except QNFError StressOutcome :=
  if iterations < 0 then Except.error QNFError.invalidArgument
  else
    let n := iterations.toNat
    Except.ok
      { successes := ((List.range n).filter (fun i => ok i)).length,
        failures := ((List.range n).filter (fun i => ¬ ok i)).length }

/-- Modelled from the spec: the mutable state of a Pool (§3) — owned processors
(their execution counters), inflight reservations, and the lazy
min-structure of (load, processorId) entries. -/
structure PoolState where
  processors : List ℕ
  inflight : List (String × ℕ)
  heapEntries : List (ℚ × String)

/-- Modelled from the spec: Pool teardown clears all processors, all
inflight reservations, and the scheduling structure (§4.2). -/
def poolTeardown (_p : PoolState) : PoolState :=
  { processors := [], inflight := [], heapEntries := [] }

/-- Modelled from the spec: the state of the Orchestrator (§3) — named pools, the
system-wide and per-pool latency windows, and the append-only log. -/
structure OrchestratorState where
  pools : List (String × PoolState)
  systemLatency : List ℚ
  perPoolLatency : List (String × List ℚ)
  log : List String

/-- Modelled from the spec: `teardown()` (§4.4) behind
`QNFService.teardown` — torn-down pools release all processors; the pool
registry, global routing state, and system log are cleared. -/
def teardownComplete (_s : OrchestratorState) : OrchestratorState :=
  { pools := [], systemLatency := [], perPoolLatency := [], log := [] }

/-- Modelled from the spec: the aggregate counts reported by `status()`
(§4.4) — pool count and total processors. -/
def statusCounts (s : OrchestratorState) : ℕ × ℕ :=
  (s.pools.length, (s.pools.map (fun p => p.2.processors.length)).sum)

/-! ## The sentinel cognition graph (`src/sentinel_cognition.py`)

Identifiers and wall-clock reads are deterministic oracles threaded through
every stage: `make_id` embeds `_make_id` (a uuid modelled by the fresh
counter), `pyNow` embeds `_now` (a monotone tick). -/

/-- An opaque identifier: the `_make_id` prefix together with the serial
number of the uuid supply that produced it. -/
structure UID where
  label : String
  serial : ℕ
  deriving DecidableEq

/-- The deterministic oracle state: the uuid supply and the clock. -/
structure Gen where
  fresh : ℕ
  tick : ℕ
  deriving DecidableEq

/-- Embeds `_make_id(prefix)`: a fresh id tagged with the prefix; the uuid
hex suffix is modelled by the fresh counter. -/
def make_id (lbl : String) (g : Gen) : UID × Gen :=
  (⟨lbl, g.fresh⟩, { g with fresh := g.fresh + 1 })

/-- Embeds `_now()`: the current clock tick as an (idealized) float. -/
def pyNow (g : Gen) : ℚ × Gen :=
  ((g.tick : ℚ), { g with tick := g.tick + 1 })

/-- Modelled from the spec: the WorkUnit stage tags of §3 ({Input, Process,
Output, Store, Retrieve, Link, Validate}); `CorePrimitive` is imported by
`sentinel_cognition.py` from `quantum_nexus_forge_v5_2_enhanced`, which does
not define it in the repository snapshot.  The pipeline uses
INPUT/PROCESS/OUTPUT. -/
inductive CorePrimitive where
  | INPUT
  | PROCESS
  | OUTPUT
  | STORE
  | RETRIEVE
  | LINK
  | VALIDATE
  deriving DecidableEq

/-- Modelled from the spec: `QuantumAtom` (the WorkUnit of the spec, §3) is
imported from `quantum_nexus_forge_v5_2_enhanced`, which does not define it
in the repository snapshot — an opaque id generated at creation, an
arbitrary payload, a stage tag, and the metadata dictionary that every use
site in `sentinel_cognition.py` relies on (defaulting to empty at
creation). -/
structure QuantumAtom where
  id : UID
  data : Value
  primitive : CorePrimitive
  metadata : Dict

/-! ### Per-stage metadata transformers

Each stage builds `out.metadata = dict(atom.metadata)` (a copy — in the pure
embedding the copy is the value itself) and then writes its keys via `dset`.
The transformers are shared between the value-semantics pipeline below and
the explicit-store embedding used for the frame-effect claim. -/

/-- Metadata update of `CognitiveNeuralOverlay.execute`: writes `neural_vec`
(the normalized pseudo-embedding) and `overlay_time`. -/
def cnoMeta (vec : List ℝ) (t : ℚ) (md : Dict) : Dict :=
  dset (dset md "neural_vec" (Value.list (vec.map Value.real)))
    "overlay_time" (Value.rat t)

/-- Metadata update of `SymbolicArray.execute`: when any rule fired, writes
`symbolic_tags` as `sorted(set(existing + tags))`; always writes
`symbolic_time`. -/
def symMeta (tags : List String) (t : ℚ) (md : Dict) : Dict :=
  let md1 :=
    if tags ≠ [] then
      dset md "symbolic_tags"
        (Value.list ((List.insertionSort (fun a b => a ≤ b)
          ((Value.toStrList (dgetD md "symbolic_tags" (Value.list []))) ++ tags).dedup).map
            Value.str))
    else md
  dset md1 "symbolic_time" (Value.rat t)

/-- Metadata update of `IntentParserNode.execute`: writes
`intent = {label, score, entities}`. -/
def intentMeta (label : String) (score : ℚ) (md : Dict) : Dict :=
  dset md "intent"
    (Value.dict [("label", Value.str label), ("score", Value.rat score),
      ("entities", Value.dict [])])

/-- Metadata update of `ReflectivePool.execute`: writes `reflective_refs`
(rank/score pairs of the top similarity matches) and `reflective_time`. -/
def reflMeta (top : List (ℕ × ℝ)) (t : ℚ) (md : Dict) : Dict :=
  dset (dset md "reflective_refs"
      (Value.list (top.map (fun is =>
        Value.dict [("rank", Value.int (is.1 : ℤ)), ("score", Value.real is.2)]))))
    "reflective_time" (Value.rat t)

/-- The topic list of `TopicIndexerNode.execute`: tag suffixes of string
entries of `symbolic_tags` starting with `"tag:"`, plus `reflective_match`
when `reflective_refs` is a nonempty list. -/
def topicsOf (md : Dict) : List String :=
  let tagStrs := match dgetD md "symbolic_tags" (Value.list []) with
    | .list xs => xs
    | _ => []
  let topics := tagStrs.filterMap (fun v => match v with
    | .str s => if s.startsWith "tag:" then Option.some (afterFirstColon s) else Option.none
    | _ => Option.none)
  let refsNonempty := match dgetD md "reflective_refs" (Value.list []) with
    | .list (_ :: _) => true
    | _ => false
  topics ++ (if refsNonempty then ["reflective_match"] else [])

/-- Metadata update of `TopicIndexerNode.execute`: writes
`topics = sorted(set(topics))` only when topics were derived. -/
def topicMeta (md : Dict) : Dict :=
  let topics := topicsOf md
  if topics ≠ [] then
    dset md "topics"
      (Value.list ((List.insertionSort (fun a b => a ≤ b) topics.dedup).map Value.str))
  else md

/-- Metadata update of `GeminiNodeStack.execute`: writes the merged
fast/deep result and `gemini_time`. -/
def gemMeta (merged : Value) (t : ℚ) (md : Dict) : Dict :=
  dset (dset md "gemini" merged) "gemini_time" (Value.rat t)

/-- Metadata update of `ShannonPrimeCore.execute`: writes the
`shannon_prime` metrics dictionary. -/
def primeMeta (entropy stability : ℝ) (tokenCount uniqueTokens : ℕ) (md : Dict) : Dict :=
  dset md "shannon_prime"
    (Value.dict [("entropy", Value.real entropy),
      ("token_count", Value.int (tokenCount : ℤ)),
      ("unique_tokens", Value.int (uniqueTokens : ℤ)),
      ("stability", Value.real stability)])

/-- Metadata update of `EmotionalAnalyzer.execute`: writes
`emotion = {pos, neg, valence}`. -/
def emoMeta (pos neg : ℕ) (valence : ℚ) (md : Dict) : Dict :=
  dset md "emotion"
    (Value.dict [("pos", Value.int (pos : ℤ)), ("neg", Value.int (neg : ℤ)),
      ("valence", Value.rat valence)])

/-- Metadata update of `EthicalGuard.execute`: writes the `ethics` flag
dictionary. -/
def ethMeta (sensitive toxicity : Bool) (md : Dict) : Dict :=
  dset md "ethics"
    (Value.dict [("sensitive", Value.bool sensitive), ("toxicity", Value.bool toxicity)])

/-- Metadata update of `CubeCore.execute`: writes `cube_signature` and
`cube_time`. -/
def cubeMeta (signature : Value) (t : ℚ) (md : Dict) : Dict :=
  dset (dset md "cube_signature" signature) "cube_time" (Value.rat t)

/-- Metadata update of `ResponseWeaverNode.execute`: writes `confidence`. -/
def weaveMeta (confidence : ℚ) (md : Dict) : Dict :=
  dset md "confidence" (Value.rat confidence)

/-! ### The stages -/

/-- The rolling-hash pseudo-embedding loop of `CognitiveNeuralOverlay`:
`vec[j] = (vec[j] * 131.0 + ord(ch)) % 997.0` over the characters of the
rendered data.  The float values are integer-valued and below 997
throughout, so the loop is exact over `ℕ`. -/
def pseudoEmbed (dim : ℕ) (s : String) : List ℕ :=
  s.toList.enum.foldl
    (fun vec ic =>
      vec.set (ic.1 % dim) ((vec.getD (ic.1 % dim) 0 * 131 + ic.2.toNat) % 997))
    (List.replicate dim 0)

namespace CognitiveNeuralOverlay

/-- Embeds `CognitiveNeuralOverlay.execute`: increments the node counter,
computes the normalized pseudo-embedding of `str(atom.data)` (dimension 16,
the `QNF_EMB_DIM` default), and returns a new atom with copied metadata
extended by `neural_vec`/`overlay_time`. -/
noncomputable def execute (execs : ℕ) (g : Gen) (atom : QuantumAtom) :
    ℕ × Gen × QuantumAtom :=
  let vec := VectorUtils.normalize ((pseudoEmbed 16 (strOf atom.data)).map (fun n => (n : ℝ)))
  let g1 := (make_id "cno" g).2
  (execs + 1, (pyNow g1).2,
   { id := (make_id "cno" g).1, data := atom.data, primitive := CorePrimitive.PROCESS,
     metadata := cnoMeta vec (pyNow g1).1 atom.metadata })

end CognitiveNeuralOverlay

/-- State of `SymbolicArray`: the execution counter and the (settable) rule
table, an insertion-ordered pattern → tag mapping. -/
structure SymbolicArrayState where
  execs : ℕ
  rules : List (String × String)

namespace SymbolicArray

/-- The rule table installed by `SymbolicArray.__init__`. -/
def defaultRules : List (String × String) :=
  [("error", "tag:anomaly"), ("stress", "tag:load"), ("final", "tag:validation"),
   ("quantum", "tag:domain.quantum"), ("cognition", "tag:domain.cognition")]

/-- The fired tags: `for key, tag in rules.items(): if key in text` in rule
insertion order. -/
def tagsFor (rules : List (String × String)) (text : String) : List String :=
  (rules.filter (fun r => pyStrContains r.1 text)).map (fun r => r.2)

/-- Embeds `SymbolicArray.execute`: rule tags matched against the lowercased
rendered data; new atom with copied metadata extended by
`symbolic_tags`/`symbolic_time`. -/
def execute (st : SymbolicArrayState) (g : Gen) (atom : QuantumAtom) :
    SymbolicArrayState × Gen × QuantumAtom :=
  let text := pyLower (strOf atom.data)
  let g1 := (make_id "sym" g).2
  ({ st with execs := st.execs + 1 }, (pyNow g1).2,
   { id := (make_id "sym" g).1, data := atom.data, primitive := CorePrimitive.PROCESS,
     metadata := symMeta (tagsFor st.rules text) (pyNow g1).1 atom.metadata })

end SymbolicArray

namespace IntentParserNode

/-- The keyword patterns of `IntentParserNode.__init__`, in insertion
order. -/
def patterns : List (String × List String) :=
  [("status", ["status", "state", "health"]),
   ("help", ["help", "assist", "how", "instructions"]),
   ("stress", ["stress", "load", "benchmark", "throughput"]),
   ("upgrade", ["upgrade", "update", "improve"]),
   ("save", ["save", "persist", "checkpoint"]),
   ("process", ["process", "run", "execute"])]

/-- The label scan: `hits = len(words & keys)`, strict improvement keeps the
earlier label on ties. -/
def bestIntent (words : List String) : String × ℕ :=
  patterns.foldl
    (fun best p =>
      let hits := (words.filter (fun w => w ∈ p.2)).length
      if hits > best.2 then (p.1, hits) else best)
    ("unknown", 0)

/-- Embeds `IntentParserNode.execute`. -/
def execute (execs : ℕ) (g : Gen) (atom : QuantumAtom) : ℕ × Gen × QuantumAtom :=
  let words := (pySplit (pyLower (strOf atom.data))).dedup
  let best := bestIntent words
  let score : ℚ := if best.2 ≠ 0 then min 1 ((best.2 : ℚ) / 3) else 0
  (execs + 1, (make_id "intent" g).2,
   { id := (make_id "intent" g).1, data := atom.data, primitive := CorePrimitive.PROCESS,
     metadata := intentMeta best.1 score atom.metadata })

end IntentParserNode

/-- One entry of the reflective memory: the rendered text and the neural
vector when the incoming atom carried a list there. -/
structure MemEntry where
  text : String
  vec : Option (List ℝ)

/-- State of `ReflectivePool`: counter, capacity, memory, and the rolling
similarity-score window (`deque(maxlen=500)`).  The PCA projector is
disabled in the modelled environment (`QNF_USE_PCA` unset), so it carries no
state here. -/
structure ReflectivePoolState where
  execs : ℕ
  capacity : ℕ
  memory : List MemEntry
  sim_scores : List ℝ

namespace ReflectivePool

/-- Embeds `ReflectivePool._jaccard`: word-set Jaccard similarity with the
both-empty case mapped to 1. -/
def jaccard (a b : String) : ℚ :=
  let aSet := (pySplit (pyLower a)).dedup
  let bSet := (pySplit (pyLower b)).dedup
  if aSet = [] ∧ bSet = [] then 1
  else
    let inter := (aSet.filter (fun w => w ∈ bSet)).length
    let union := (aSet ++ bSet.filter (fun w => w ∉ aSet)).length
    if union ≠ 0 then (inter : ℚ) / (union : ℚ) else 0

/-- Python truthiness of an optional vector: not `None` and nonempty. -/
def truthyVec : Option (List ℝ) → Bool
  | Option.some (_ :: _) => true
  | _ => false

/-- Embeds `ReflectivePool._cosine`: 0 when either argument is `None` or
empty, else the vector-utils cosine. -/
noncomputable def cosineOpt (u v : Option (List ℝ)) : ℝ :=
  if truthyVec u ∧ truthyVec v then VectorUtils.cosine (u.getD []) (v.getD []) else 0

/-- `cur_vec = atom.metadata.get("neural_vec")` with the `isinstance(…,
list)` checks of `ReflectivePool.execute`: only a list value is kept. -/
def curVecOf (md : Dict) : Option (List ℝ) :=
  match dget md "neural_vec" with
  | Option.some (.list xs) => Option.some (xs.map Value.toR)
  | _ => Option.none

/-- The similarity sweep of `ReflectivePool.execute`: over the last
`capacity` memory entries (a Python `[-capacity:]` slice, which is the whole
list when `capacity == 0`), cosine when both vectors are truthy, else
Jaccard of the rendered texts. -/
noncomputable def simsOf (st : ReflectivePoolState) (text : String)
    (curVec : Option (List ℝ)) : List (ℕ × ℝ) :=
  let window :=
    if st.capacity = 0 then st.memory
    else st.memory.drop (st.memory.length - st.capacity)
  window.enum.map (fun ie =>
    if truthyVec curVec ∧ truthyVec ie.2.vec then
      (ie.1, cosineOpt curVec ie.2.vec)
    else (ie.1, ((jaccard text ie.2.text : ℚ) : ℝ)))

/-- Embeds `ReflectivePool.execute`: ranks similarities descending (stable),
keeps the top 3, appends the best score to the rolling window, extends the
metadata, and appends the new entry to the bounded memory. -/
noncomputable def execute (st : ReflectivePoolState) (g : Gen) (atom : QuantumAtom) :
    ReflectivePoolState × Gen × QuantumAtom :=
  let text := strOf atom.data
  let curVec := curVecOf atom.metadata
  let top := (List.insertionSort (fun a b => b.2 ≤ a.2) (simsOf st text curVec)).take 3
  let g1 := (make_id "refl" g).2
  ({ st with
      execs := st.execs + 1,
      memory := memAppend st.capacity st.memory ⟨text, curVec⟩,
      sim_scores :=
        match top with
        | [] => st.sim_scores
        | tp :: _ => memAppend 500 st.sim_scores tp.2 },
   (pyNow g1).2,
   { id := (make_id "refl" g).1, data := atom.data, primitive := CorePrimitive.PROCESS,
     metadata := reflMeta top (pyNow g1).1 atom.metadata })

/-- Embeds `ReflectivePool.clear`: empties the memory and the rolling
similarity-score window, leaving capacity and counters alone. -/
def clear (st : ReflectivePoolState) : ReflectivePoolState :=
  { st with memory := [], sim_scores := [] }

end ReflectivePool

namespace TopicIndexerNode

/-- Embeds `TopicIndexerNode.execute`. -/
def execute (execs : ℕ) (g : Gen) (atom : QuantumAtom) : ℕ × Gen × QuantumAtom :=
  (execs + 1, (make_id "topic" g).2,
   { id := (make_id "topic" g).1, data := atom.data, primitive := CorePrimitive.PROCESS,
     metadata := topicMeta atom.metadata })

end TopicIndexerNode

namespace GeminiNodeStack

/-- Embeds `GeminiNodeStack._fast_path`: rendered-data length and the
symbolic tags. -/
def fastPath (atom : QuantumAtom) : Value :=
  Value.dict [("len", Value.int ((strOf atom.data).length : ℤ)),
    ("tags", dgetD atom.metadata "symbolic_tags" (Value.list []))]

/-- Embeds `GeminiNodeStack._deep_path`: `int(sum(vec) if vec else 0)` over
`neural_vec`, and the distinct-word count of the rendered data. -/
noncomputable def deepPath (atom : QuantumAtom) : Value :=
  let vec := match dget atom.metadata "neural_vec" with
    | Option.some (.list xs) => xs.map Value.toR
    | _ => []
  Value.dict
    [("neural_sum", Value.int (match vec with | [] => 0 | _ => pyTrunc vec.sum)),
     ("distinct_words", Value.int (((pySplit (strOf atom.data)).dedup.length : ℤ)))]

/-- Embeds `GeminiNodeStack.execute`. -/
noncomputable def execute (execs : ℕ) (g : Gen) (atom : QuantumAtom) :
    ℕ × Gen × QuantumAtom :=
  let merged := Value.dict [("fast", fastPath atom), ("deep", deepPath atom)]
  let g1 := (make_id "gem" g).2
  (execs + 1, (pyNow g1).2,
   { id := (make_id "gem" g).1, data := atom.data, primitive := CorePrimitive.PROCESS,
     metadata := gemMeta merged (pyNow g1).1 atom.metadata })

end GeminiNodeStack

/-- State of `ShannonPrimeCore`: counter, window size, recent tokens and the
previous entropy value. -/
structure ShannonPrimeState where
  execs : ℕ
  window : ℕ
  recent : List String
  prev_entropy : Option ℝ

namespace ShannonPrimeCore

/-- Embeds `ShannonPrimeCore._counts`: the insertion-ordered frequency map
of the recent tokens. -/
def countsOf (tokens : List String) : List (String × ℕ) :=
  tokens.foldl
    (fun acc t =>
      if acc.any (fun kv => kv.1 = t) then
        acc.map (fun kv => if kv.1 = t then (kv.1, kv.2 + 1) else kv)
      else acc ++ [(t, 1)])
    []

/-- Embeds `ShannonPrimeCore._entropy`: Shannon entropy in bits with
`total = sum(counts.values()) or 1`. -/
noncomputable def shannonEntropy (counts : List ℕ) : ℝ :=
  let total : ℕ := if counts.sum = 0 then 1 else counts.sum
  let terms := counts.map (fun c => (c : ℝ) / (total : ℝ) * Real.logb 2 ((c : ℝ) / (total : ℝ)))
  (-(terms.sum) : ℝ)

/-- Embeds `ShannonPrimeCore.execute`: extends the token window (trimmed to
the last `window` tokens), recomputes entropy, and derives the clamped
stability score `1 - |H - prev| / max(H, 1e-9)`. -/
noncomputable def execute (st : ShannonPrimeState) (g : Gen) (atom : QuantumAtom) :
    ShannonPrimeState × Gen × QuantumAtom :=
  let tokens := (pySplit (pyLower (strOf atom.data))).filter (fun t => t ≠ "")
  let recent1 := st.recent ++ tokens
  let recent2 :=
    if recent1.length > st.window then recent1.drop (recent1.length - st.window)
    else recent1
  let counts := countsOf recent2
  let H := shannonEntropy (counts.map (fun kv => kv.2))
  let prev := st.prev_entropy.getD H
  let stability := max 0 (min 1 (1 - |H - prev| / max H (1 / 1000000000)))
  ({ st with execs := st.execs + 1, recent := recent2, prev_entropy := Option.some H },
   (make_id "prime" g).2,
   { id := (make_id "prime" g).1, data := atom.data, primitive := CorePrimitive.PROCESS,
     metadata := primeMeta H stability (counts.map (fun kv => kv.2)).sum counts.length
       atom.metadata })

end ShannonPrimeCore

namespace MetatronEngine

/-- Embeds `MetatronEngine.execute`: a pass-through — new id, same data and
primitive, copied metadata with no updates (suggestions are out-of-band). -/
def execute (execs : ℕ) (g : Gen) (atom : QuantumAtom) : ℕ × Gen × QuantumAtom :=
  (execs + 1, (make_id "meta" g).2,
   { id := (make_id "meta" g).1, data := atom.data, primitive := atom.primitive,
     metadata := atom.metadata })

end MetatronEngine

namespace EmotionalAnalyzer

/-- The positive lexicon of `EmotionalAnalyzer`. -/
def POS : List String := ["good", "great", "love", "happy", "win", "success", "calm"]

/-- The negative lexicon of `EmotionalAnalyzer`. -/
def NEG : List String := ["bad", "hate", "angry", "fail", "error", "stress", "panic"]

/-- Embeds `EmotionalAnalyzer.execute`: lexicon hit counts over the distinct
lowercased words and the valence `(pos - neg) / (pos + neg)` (0 when no
hits). -/
def execute (execs : ℕ) (g : Gen) (atom : QuantumAtom) : ℕ × Gen × QuantumAtom :=
  let words := (pySplit (pyLower (strOf atom.data))).dedup
  let pos := (words.filter (fun w => w ∈ POS)).length
  let neg := (words.filter (fun w => w ∈ NEG)).length
  let score : ℚ := if pos + neg ≠ 0 then ((pos : ℚ) - (neg : ℚ)) / ((pos : ℚ) + (neg : ℚ)) else 0
  (execs + 1, (make_id "emo" g).2,
   { id := (make_id "emo" g).1, data := atom.data, primitive := CorePrimitive.PROCESS,
     metadata := emoMeta pos neg score atom.metadata })

end EmotionalAnalyzer

namespace EthicalGuard

/-- The `sensitive` keyword set of `EthicalGuard.FLAGS`. -/
def SENSITIVE : List String := ["password", "ssn", "credit", "api_key"]

/-- The `toxicity` keyword set of `EthicalGuard.FLAGS`. -/
def TOXICITY : List String := ["hate", "stupid", "idiot"]

/-- Embeds `EthicalGuard.execute`: substring flags over the lowercased
rendered data. -/
def execute (execs : ℕ) (g : Gen) (atom : QuantumAtom) : ℕ × Gen × QuantumAtom :=
  let text := pyLower (strOf atom.data)
  (execs + 1, (make_id "eth" g).2,
   { id := (make_id "eth" g).1, data := atom.data, primitive := CorePrimitive.PROCESS,
     metadata := ethMeta (SENSITIVE.any (fun w => pyStrContains w text))
       (TOXICITY.any (fun w => pyStrContains w text)) atom.metadata })

end EthicalGuard

namespace CubeCore

/-- The signature triple of `CubeCore.execute`: `(sum(vec) % 997,
len("+".join(tags)) % 127, distinct_words % 61)`, with `neural_vec`
defaulting to eight zeros and `distinct_words` read from the nested gemini
metadata. -/
noncomputable def signatureOf (md : Dict) : Value :=
  let vecVal := dgetD md "neural_vec"
    (Value.list [Value.int 0, Value.int 0, Value.int 0, Value.int 0,
      Value.int 0, Value.int 0, Value.int 0, Value.int 0])
  let vecSum : ℝ := match vecVal with
    | .list xs => (xs.map Value.toR).sum
    | _ => 0
  let sTags := String.intercalate "+" (Value.toStrList (dgetD md "symbolic_tags" (Value.list [])))
  let deep := match dgetD md "gemini" (Value.dict []) with
    | .dict gd => dgetD gd "deep" (Value.dict [])
    | _ => Value.dict []
  let dw : ℤ := match deep with
    | .dict dd =>
        (match dgetD dd "distinct_words" (Value.int 0) with
         | .int n => n
         | _ => 0)
    | _ => 0
  Value.list [Value.real (realFmod vecSum 997),
    Value.int ((sTags.length : ℤ) % 127), Value.int (dw % 61)]

/-- Embeds `CubeCore.execute`: the output atom wraps the prior data together
with the signature and records `cube_signature`/`cube_time`. -/
noncomputable def execute (execs : ℕ) (g : Gen) (atom : QuantumAtom) :
    ℕ × Gen × QuantumAtom :=
  let sig := signatureOf atom.metadata
  let g1 := (make_id "cube" g).2
  (execs + 1, (pyNow g1).2,
   { id := (make_id "cube" g).1,
     data := Value.dict [("value", atom.data), ("signature", sig)],
     primitive := CorePrimitive.OUTPUT,
     metadata := cubeMeta sig (pyNow g1).1 atom.metadata })

end CubeCore

namespace ResponseWeaverNode

/-- Embeds `ResponseWeaverNode.execute`: the confidence
`clamp(0.7 * intent_score + 0.3 * |valence|)` and the structured response
payload; the output atom carries the payload as data. -/
def execute (execs : ℕ) (g : Gen) (atom : QuantumAtom) : ℕ × Gen × QuantumAtom :=
  let intent := dgetD atom.metadata "intent" (Value.dict [])
  let topics := dgetD atom.metadata "topics" (Value.list [])
  let emo := dgetD atom.metadata "emotion" (Value.dict [])
  let intentScore : ℚ := match intent with
    | .dict idn => (dgetD idn "score" (Value.rat 0)).toRatD 0
    | _ => 0
  let valence : ℚ := match emo with
    | .dict ed => (dgetD ed "valence" (Value.rat 0)).toRatD 0
    | _ => 0
  let confidence : ℚ := max 0 (min 1 (7/10 * intentScore + 3/10 * |valence|))
  let label := match intent with
    | .dict idn => (dgetD idn "label" (Value.str "unknown")).toStrD "unknown"
    | _ => "unknown"
  let payload : Value := Value.dict
    [("intent", Value.str label), ("topics", topics),
     ("confidence", Value.rat confidence), ("echo", Value.str (strOf atom.data))]
  (execs + 1, (make_id "weave" g).2,
   { id := (make_id "weave" g).1, data := payload, primitive := CorePrimitive.OUTPUT,
     metadata := weaveMeta confidence atom.metadata })

end ResponseWeaverNode

/-- The node-id trail written by `SentinelProcessor.execute` under the
`pipeline` metadata key. -/
def pipelineIds : List String :=
  ["cognitive_neural_overlay", "symbolic_array", "intent_parser", "reflective_pool",
   "topic_indexer", "gemini_node_stack", "shannon_prime", "metatron_engine",
   "emotional_analyzer", "ethical_guard", "cube_core", "response_weaver"]

/-- State of `SentinelProcessor`: its own execution counter and the state of
every owned node (stateless nodes reduce to their counters). -/
structure SPState where
  execs : ℕ
  cno : ℕ
  sym : SymbolicArrayState
  intent : ℕ
  refl : ReflectivePoolState
  topic : ℕ
  gem : ℕ
  prime : ShannonPrimeState
  meta : ℕ
  emo : ℕ
  eth : ℕ
  cube : ℕ

namespace SentinelProcessor

/-- Embeds `SentinelProcessor.execute`: the twelve-stage sequence (a fresh
`ResponseWeaverNode` is created per call, its counter discarded) followed by
the final wrap that records the pipeline trail. -/
noncomputable def execute (st : SPState) (g : Gen) (atom : QuantumAtom) :
    SPState × Gen × QuantumAtom :=
  let r1 := CognitiveNeuralOverlay.execute st.cno g atom
  let r2 := SymbolicArray.execute st.sym r1.2.1 r1.2.2
  let r3 := IntentParserNode.execute st.intent r2.2.1 r2.2.2
  let r4 := ReflectivePool.execute st.refl r3.2.1 r3.2.2
  let r5 := TopicIndexerNode.execute st.topic r4.2.1 r4.2.2
  let r6 := GeminiNodeStack.execute st.gem r5.2.1 r5.2.2
  let r7 := ShannonPrimeCore.execute st.prime r6.2.1 r6.2.2
  let r8 := MetatronEngine.execute st.meta r7.2.1 r7.2.2
  let r9 := EmotionalAnalyzer.execute st.emo r8.2.1 r8.2.2
  let r10 := EthicalGuard.execute st.eth r9.2.1 r9.2.2
  let r11 := CubeCore.execute st.cube r10.2.1 r10.2.2
  let r12 := ResponseWeaverNode.execute 0 r11.2.1 r11.2.2
  let gEnd := (make_id "sp" r12.2.1).2
  ({ execs := st.execs + 1, cno := r1.1, sym := r2.1, intent := r3.1, refl := r4.1,
     topic := r5.1, gem := r6.1, prime := r7.1, meta := r8.1, emo := r9.1,
     eth := r10.1, cube := r11.1 },
   gEnd,
   { id := (make_id "sp" r12.2.1).1, data := r12.2.2.data,
     primitive := CorePrimitive.OUTPUT,
     metadata := dset r12.2.2.metadata "pipeline" (Value.list (pipelineIds.map Value.str)) })

end SentinelProcessor

/-- Embeds the `CognitionResult` dataclass of `sentinel_cognition.py`. -/
structure CognitionResult where
  input : Value
  output : Value
  signature : Option Value
  processing_time : ℚ
  metadata : Dict

namespace SentinelCognitionGraph

/-- Embeds `SentinelCognitionGraph.process`: wraps the payload in a fresh
atom (the missing `QuantumAtom` constructor is modelled from the spec as
generating a fresh id with empty metadata), runs the processor, reads the
signature, and returns the result with `neural_vec` filtered out of the
metadata. -/
noncomputable def process (st : SPState) (g : Gen) (data : Value) :
    SPState × Gen × CognitionResult :=
  let start := (pyNow g).1
  let g0 := (pyNow g).2
  let atom : QuantumAtom :=
    { id := (make_id "atom" g0).1, data := data, primitive := CorePrimitive.INPUT,
      metadata := [] }
  let g1 := (make_id "atom" g0).2
  let r := SentinelProcessor.execute st g1 atom
  (r.1, (pyNow r.2.1).2,
   { input := data,
     output := r.2.2.data,
     signature := dget r.2.2.metadata "cube_signature",
     processing_time := (pyNow r.2.1).1 - start,
     metadata := r.2.2.metadata.filter (fun kv => kv.1 ≠ "neural_vec") })

end SentinelCognitionGraph

/-! ## Explicit-store view of the stage frame effect

For the frame-effect claim, metadata aliasing is made explicit: atoms hold a
pointer into a store of dictionaries, `dict(atom.metadata)` allocates a new
dictionary, and the stage writes only to the fresh copy.  The metadata
transformers are shared with the value-semantics pipeline above. -/

/-- A store of metadata dictionaries; the `metadata` attribute of an atom is an
index into it. -/
abbrev Store := List Dict

/-- An atom under the explicit-store view: as `QuantumAtom`, but holding a
pointer to its metadata dictionary. -/
structure HAtom where
  id : UID
  data : Value
  primitive : CorePrimitive
  meta : ℕ

/-- Dereferences the metadata pointer of an atom (a dangling pointer reads the
empty dictionary; the theorems assume validity where it matters). -/
def storeGet (σ : Store) (p : ℕ) : Dict :=
  σ.getD p []

/-- Embeds `CognitiveNeuralOverlay.execute` under the explicit-store view:
`enriched.metadata = dict(atom.metadata)` allocates the copy at the end of
the store, the update writes only there, and the returned atom points at
the fresh dictionary. -/
noncomputable def CognitiveNeuralOverlay.executeStore (σ : Store) (g : Gen) (a : HAtom) :
    Store × Gen × HAtom :=
  let vec := VectorUtils.normalize ((pseudoEmbed 16 (strOf a.data)).map (fun n => (n : ℝ)))
  let g1 := (make_id "cno" g).2
  (σ ++ [cnoMeta vec (pyNow g1).1 (storeGet σ a.meta)],
   (pyNow g1).2,
   { id := (make_id "cno" g).1, data := a.data, primitive := CorePrimitive.PROCESS,
     meta := σ.length })

/-- Embeds `SymbolicArray.execute` under the explicit-store view. -/
def SymbolicArray.executeStore (rules : List (String × String)) (σ : Store) (g : Gen)
    (a : HAtom) : Store × Gen × HAtom :=
  let text := pyLower (strOf a.data)
  let g1 := (make_id "sym" g).2
  (σ ++ [symMeta (SymbolicArray.tagsFor rules text) (pyNow g1).1 (storeGet σ a.meta)],
   (pyNow g1).2,
   { id := (make_id "sym" g).1, data := a.data, primitive := CorePrimitive.PROCESS,
     meta := σ.length })

/-- The initial node states installed by `SentinelProcessor.__init__`:
fresh counters, the default rule table, reflective capacity 64, Shannon
window 256. -/
def SPState.init : SPState :=
  { execs := 0, cno := 0, sym := { execs := 0, rules := SymbolicArray.defaultRules },
    intent := 0,
    refl := { execs := 0, capacity := 64, memory := [], sim_scores := [] },
    topic := 0, gem := 0,
    prime := { execs := 0, window := 256, recent := [], prev_entropy := Option.none },
    meta := 0, emo := 0, eth := 0, cube := 0 }

/-! ## Theorems -/

namespace VectorUtils

theorem dot_nonneg_self (u : List ℝ) : 0 ≤ dot u u := by
  unfold dot
  induction u with
  | nil => simp
  | cons x xs ih =>
      simp only [List.zipWith_cons_cons, List.sum_cons]
      have hx : 0 ≤ x * x := mul_self_nonneg x
      linarith

theorem dot_map_div (u : List ℝ) (c : ℝ) :
    dot (u.map (fun x => x / c)) (u.map (fun x => x / c)) = dot u u / (c * c) := by
  unfold dot
  induction u with
  | nil => simp
  | cons x xs ih =>
      simp only [List.map_cons, List.zipWith_cons_cons, List.sum_cons, ih]
      field_simp

theorem norm_map_div (u : List ℝ) (c : ℝ) (hc : 0 < c) :
    norm (u.map (fun x => x / c)) = norm u / c := by
  unfold norm
  rw [dot_map_div, Real.sqrt_div (dot_nonneg_self u), Real.sqrt_mul_self hc.le]

end VectorUtils

/-- C10. In the pure-Python path of the vector utilities: a vector of
positive norm is normalized by componentwise division by its norm and the
result has Euclidean norm 1; a vector of zero norm is returned unchanged by
`normalize`; and `cosine` returns 0 whenever either argument has zero norm,
so it is total on all real vectors. -/
theorem vector_utils_normalize_cosine (u v : List ℝ) :
    (VectorUtils.norm u > 0 →
      VectorUtils.normalize u = u.map (fun x => x / VectorUtils.norm u) ∧
      VectorUtils.norm (VectorUtils.normalize u) = 1) ∧
    (VectorUtils.norm u = 0 → VectorUtils.normalize u = u) ∧
    ((VectorUtils.norm u = 0 ∨ VectorUtils.norm v = 0) →
      VectorUtils.cosine u v = 0) := by
  refine ⟨fun hpos => ?_, fun hzero => ?_, fun hor => ?_⟩
  · have hne : ¬ VectorUtils.norm u ≤ 0 := not_le.mpr hpos
    constructor
    · simp [VectorUtils.normalize, hne]
    · simp only [VectorUtils.normalize, hne, if_false]
      rw [VectorUtils.norm_map_div u _ hpos, div_self (ne_of_gt hpos)]
  · simp [VectorUtils.normalize, hzero]
  · unfold VectorUtils.cosine
    rcases hor with h | h
    · simp [h]
    · simp only [h]
      have : ¬ (VectorUtils.norm u > 0 ∧ (0:ℝ) > 0) := by
        rintro ⟨-, hlt⟩; exact lt_irrefl 0 hlt
      simp [this]

/-- Witness for C10: concrete applications at `u = [1, 0]` (positive norm;
`normalize` fixes it and yields norm 1) and at the zero vector (zero norm;
`cosine` degenerates to 0). -/
theorem vector_utils_normalize_cosine_witness :
    VectorUtils.norm (VectorUtils.normalize [(1:ℝ), 0]) = 1 ∧
    VectorUtils.cosine [(1:ℝ), 0] [(0:ℝ), 0] = 0 := by
  have hpos : VectorUtils.norm [(1:ℝ), 0] > 0 := by
    norm_num [VectorUtils.norm, VectorUtils.dot]
  have hzero : VectorUtils.norm [(0:ℝ), 0] = 0 := by
    norm_num [VectorUtils.norm, VectorUtils.dot]
  exact ⟨((vector_utils_normalize_cosine [(1:ℝ), 0] [(0:ℝ), 0]).1 hpos).2,
    (vector_utils_normalize_cosine [(1:ℝ), 0] [(0:ℝ), 0]).2.2 (Or.inr hzero)⟩

/-- C1. The percentile estimator of `ReflectivePool.embed_metrics` sorts the
current samples and returns the `round(p/100 * (n-1))`-th order statistic
with the index clamped to `[0, n-1]` (so in particular a member of the
sample set), and both the mean and every percentile of an empty window
are 0. -/
theorem reflective_pct_order_statistic (scores : List ℚ) (p : ℚ) :
    ReflectivePool.pct scores p = ReflectivePool.percentileSpec scores p ∧
    ReflectivePool.pct [] p = 0 ∧
    ReflectivePool.mean [] = 0 ∧
    (scores ≠ [] → ReflectivePool.pct scores p ∈ scores) := by
  refine ⟨?_, by simp [ReflectivePool.pct], by simp [ReflectivePool.mean],
    fun hne => ?_⟩
  · unfold ReflectivePool.pct ReflectivePool.percentileSpec
    rfl
  · have hn : scores.length ≠ 0 := by
      simpa [List.length_eq_zero] using hne
    unfold ReflectivePool.pct
    simp only [hn, if_false]
    have hidx :
        (max 0 (min ((scores.length : ℤ) - 1)
          (pythonRound (p / 100 * ((scores.length : ℚ) - 1))))).toNat <
          (ReflectivePool.sortQ scores).length := by
      rw [show (ReflectivePool.sortQ scores).length = scores.length by
        simp [ReflectivePool.sortQ, List.length_insertionSort]]
      omega
    rw [List.getD_eq_getElem _ _ hidx]
    exact (List.perm_insertionSort _ scores).mem_iff.mp
      (List.getElem_mem hidx)

/-- Witness for C1: the nonempty-window membership conjunct applied at the
concrete window `[2, 3, 4]` with `p = 95`. -/
theorem reflective_pct_order_statistic_witness :
    ReflectivePool.pct [2, 3, 4] 95 ∈ ([2, 3, 4] : List ℚ) :=
  (reflective_pct_order_statistic [2, 3, 4] 95).2.2.2 (by simp)

theorem memAppend_length_le {α : Type} (capacity : ℕ) (mem : List α) (e : α)
    (hle : mem.length ≤ capacity) :
    (ReflectivePool.memAppend capacity mem e).length ≤ capacity := by
  unfold ReflectivePool.memAppend
  by_cases h : (mem ++ [e]).length > capacity
  · simp only [h, if_true]
    simp only [List.length_tail, List.length_append, List.length_singleton] at *
    omega
  · simp only [h, if_false]
    simp only [List.length_append, List.length_singleton] at *
    omega

/-- C2. The reflective memory is a bounded FIFO: the append step of `ReflectivePool.execute` keeps the stored-sample count at or below the capacity, adding
at capacity evicts exactly the oldest sample, and adding `[1,2,3,4]` to an
empty window of capacity 3 leaves exactly `[2,3,4]` in order, with
`mean = 3`, `percentile(100) = 4` and `percentile(0) = 2`; consequently
every `ReflectivePool.execute` call preserves
`len(_memory) <= capacity`. -/
theorem reflective_memory_bounded_fifo :
    (∀ (α : Type) (capacity : ℕ) (mem : List α) (e : α),
        mem.length ≤ capacity →
        (ReflectivePool.memAppend capacity mem e).length ≤ capacity) ∧
    (∀ (α : Type) (capacity : ℕ) (mem : List α) (e : α),
        mem.length = capacity → 0 < capacity →
        ReflectivePool.memAppend capacity mem e = mem.tail ++ [e]) ∧
    List.foldl (ReflectivePool.memAppend 3) ([] : List ℚ) [1, 2, 3, 4] =
      [2, 3, 4] ∧
    ReflectivePool.mean [2, 3, 4] = 3 ∧
    ReflectivePool.pct [2, 3, 4] 100 = 4 ∧
    ReflectivePool.pct [2, 3, 4] 0 = 2 ∧
    (∀ (st : ReflectivePoolState) (g : Gen) (atom : QuantumAtom),
        st.memory.length ≤ st.capacity →
        ((ReflectivePool.execute st g atom).1).memory.length ≤
          ((ReflectivePool.execute st g atom).1).capacity) := by
  refine ⟨?_, ?_, ?_, ?_, ?_, ?_, ?_⟩
  · intro α capacity mem e hle
    exact memAppend_length_le capacity mem e hle
  · intro α capacity mem e hlen hpos
    unfold ReflectivePool.memAppend
    have h : (mem ++ [e]).length > capacity := by
      simp [List.length_append, hlen]
    simp only [h, if_true]
    cases mem with
    | nil => simp at hlen; omega
    | cons x xs => simp
  · norm_num [ReflectivePool.memAppend]
  · norm_num [ReflectivePool.mean, ReflectivePool.sortQ,
      List.insertionSort, List.orderedInsert]
  · norm_num [ReflectivePool.pct, ReflectivePool.sortQ, pythonRound,
      List.insertionSort, List.orderedInsert, Int.toNat_ofNat]
    try rfl
  · norm_num [ReflectivePool.pct, ReflectivePool.sortQ, pythonRound,
      List.insertionSort, List.orderedInsert, Int.toNat_ofNat]
    try rfl
  · intro st g atom h
    dsimp only [ReflectivePool.execute]
    exact memAppend_length_le st.capacity st.memory _ h

/-- Witness for C2: the two guarded conjuncts applied at the concrete
window `[1, 2, 3]` of capacity 3 with incoming sample 4. -/
theorem reflective_memory_bounded_fifo_witness :
    (ReflectivePool.memAppend 3 [(1:ℚ), 2, 3] 4).length ≤ 3 ∧
    ReflectivePool.memAppend 3 [(1:ℚ), 2, 3] 4 = [(1:ℚ), 2, 3].tail ++ [4] :=
  ⟨reflective_memory_bounded_fifo.1 ℚ 3 [1, 2, 3] 4 (by simp),
   reflective_memory_bounded_fifo.2.1 ℚ 3 [1, 2, 3] 4 (by simp) (by simp)⟩

/-- C5. Modelled from the spec (the Processor of the pool core is not in the
repository snapshot): `execute` returns a new WorkUnit whose payload has
passed through exactly the three synthetic sub-stages ingest, transform,
emit — each sub-stage yielding an intermediate unit with a stage-tagged
derived id and a stage-wrapped payload — and the completed-execution
counter increments by exactly 1. -/
theorem processor_three_stage_pipeline (executionCount : ℕ) (u : WorkUnit) :
    (nexusProcessorExecute executionCount u).1 = executionCount + 1 ∧
    (nexusProcessorExecute executionCount u).2 =
      subStageApply "emit" (subStageApply "transform" (subStageApply "ingest" u)) ∧
    (nexusProcessorExecute executionCount u).2.payload =
      Value.dict [("stage", Value.str "emit"), ("payload",
        Value.dict [("stage", Value.str "transform"), ("payload",
          Value.dict [("stage", Value.str "ingest"), ("payload", u.payload)])])] ∧
    (nexusProcessorExecute executionCount u).2.id =
      ((u.id ++ "_" ++ "ingest") ++ "_" ++ "transform") ++ "_" ++ "emit" ∧
    (∀ (tag : String) (v : WorkUnit),
      (subStageApply tag v).id = v.id ++ "_" ++ tag ∧
      (subStageApply tag v).payload =
        Value.dict [("stage", Value.str tag), ("payload", v.payload)]) :=
  ⟨rfl, rfl, rfl, rfl, fun _ _ => ⟨rfl, rfl⟩⟩

/-- C6. Modelled from the spec (the pool core is not in the repository
snapshot): the scale-up decision equals `maxLoad / (avgLoad + 1) >
loadThreshold` with strict greater-than over the effective loads; loads
`[10,10,10,0]` with threshold 0.8 trigger (ratio 10/8.5), loads `[5,5,5,5]`
trigger (ratio 5/6 > 0.8), and a ratio exactly equal to the threshold does
not trigger. -/
theorem pool_scale_up_predicate :
    (∀ (loads : List ℚ) (loadThreshold : ℚ),
      scaleUpPredicate loads loadThreshold = true ↔
        loads.foldl max 0 / (loads.sum / (loads.length : ℚ) + 1) > loadThreshold) ∧
    scaleUpPredicate [10, 10, 10, 0] (8/10) = true ∧
    scaleUpPredicate [5, 5, 5, 5] (8/10) = true ∧
    scaleUpPredicate [4, 4] (8/10) = false := by
  refine ⟨fun loads θ => by simp [scaleUpPredicate], ?_, ?_, ?_⟩ <;>
    norm_num [scaleUpPredicate, List.foldl]

/-- C8. Teardown is idempotent: a second `teardown()` leaves the observable
state of the first unchanged, and after either call `status()` reports zero
pools and zero processors, with all processors, inflight reservations and
scheduling structures cleared (spec-modelled, the pool core being absent
from the snapshot); likewise `ReflectivePool.clear` from the source is
idempotent and empties the memory and score window. -/
theorem teardown_idempotent (s : OrchestratorState) (p : PoolState)
    (rp : ReflectivePoolState) :
    teardownComplete (teardownComplete s) = teardownComplete s ∧
    statusCounts (teardownComplete s) = (0, 0) ∧
    poolTeardown (poolTeardown p) = poolTeardown p ∧
    (poolTeardown p).processors = [] ∧
    (poolTeardown p).inflight = [] ∧
    (poolTeardown p).heapEntries = [] ∧
    ReflectivePool.clear (ReflectivePool.clear rp) = ReflectivePool.clear rp ∧
    (ReflectivePool.clear rp).memory = [] ∧
    (ReflectivePool.clear rp).sim_scores = [] :=
  ⟨rfl, by simp [statusCounts, teardownComplete], rfl, rfl, rfl, rfl, rfl, rfl, rfl⟩

theorem length_filter_add_length_filter_not {α : Type} (p : α → Bool) (l : List α) :
    (l.filter p).length + (l.filter (fun a => !(p a))).length = l.length := by
  induction l with
  | nil => rfl
  | cons x xs ih =>
      by_cases h : p x <;> simp [List.filter_cons, h] <;> omega

/-- C7. Modelled from the spec (the pool core behind
`QNFService.stress_test` is not in the repository snapshot): `stressTest`
fails with `InvalidArgument` exactly when `iterations < 0`; for
`iterations ≥ 0` every per-iteration failure is caught and tallied (the
oracle `ok` describes which iterations fail), the batch returns normally,
and the reported successes plus failures equal the number of iterations. -/
theorem stress_test_accounting (iterations : ℤ) (ok : ℕ → Bool) :
    (stressTest iterations ok = Except.error QNFError.invalidArgument ↔ iterations < 0) ∧
    (0 ≤ iterations →
      ∃ r : StressOutcome, stressTest iterations ok = Except.ok r ∧
        r.successes + r.failures = iterations.toNat) := by
  constructor
  · constructor
    · intro h
      by_contra hge
      simp [stressTest, hge] at h
    · intro h
      simp [stressTest, h]
  · intro h
    have hn : ¬ iterations < 0 := not_lt.mpr h
    refine ⟨{ successes := ((List.range iterations.toNat).filter (fun i => ok i)).length,
              failures := ((List.range iterations.toNat).filter (fun i => ¬ ok i)).length },
            ?_, ?_⟩
    · simp [stressTest, hn]
    · have := length_filter_add_length_filter_not (fun i => ok i)
        (List.range iterations.toNat)
      simpa [List.length_range] using this

/-- Witness for C7: a stress run of 200 iterations in which every seventh
unit fails still returns normally with `successes + failures = 200`. -/
theorem stress_test_accounting_witness :
    ∃ r : StressOutcome,
      stressTest 200 (fun i => decide (i % 7 ≠ 0)) = Except.ok r ∧
        r.successes + r.failures = 200 := by
  have h := (stress_test_accounting 200 (fun i => decide (i % 7 ≠ 0))).2 (by norm_num)
  simpa using h

theorem sum_scheduleBump :
    ∀ (counters : List ℕ) (i : ℕ), i < counters.length →
      (scheduleBump counters i).sum = counters.sum + 1 := by
  intro counters
  induction counters with
  | nil => intro i h; simp at h
  | cons c cs ih =>
      intro i h
      cases i with
      | zero =>
          simp only [scheduleBump, List.set_cons_zero, List.getD_cons_zero, List.sum_cons]
          omega
      | succ n =>
          have hn : n < cs.length := by simpa using h
          simp only [scheduleBump, List.set_cons_succ, List.getD_cons_succ, List.sum_cons]
          have := ih n hn
          simp only [scheduleBump] at this
          omega

theorem sum_scheduleAll (assignment : List ℕ) :
    ∀ (counters : List ℕ), (∀ i ∈ assignment, i < counters.length) →
      (scheduleAll counters assignment).sum = counters.sum + assignment.length := by
  induction assignment with
  | nil => intro counters _; simp [scheduleAll]
  | cons a rest ih =>
      intro counters h
      have ha : a < counters.length := h a (by simp)
      have hlen : (scheduleBump counters a).length = counters.length := by
        simp [scheduleBump, List.length_set]
      have hrest : ∀ i ∈ rest, i < (scheduleBump counters a).length := by
        intro i hi
        rw [hlen]
        exact h i (by simp [hi])
      calc (scheduleAll counters (a :: rest)).sum
          = (scheduleAll (scheduleBump counters a) rest).sum := rfl
        _ = (scheduleBump counters a).sum + rest.length := ih _ hrest
        _ = counters.sum + 1 + rest.length := by rw [sum_scheduleBump counters a ha]
        _ = counters.sum + (a :: rest).length := by simp [List.length_cons]; omega

/-- C3. From the source, every call to a processing unit `execute`
increments the completed-execution counter of exactly that unit by exactly 1
(shown for `SentinelProcessor` and, within one call, for its neural-overlay,
symbolic-array and reflective-pool sub-nodes, plus standalone
`CognitiveNeuralOverlay.execute`); and —
modelled from the spec, the pool core being absent from the snapshot —
scheduling a sequence of units to a fixed set of processors with no scaling
raises the sum of the counters by exactly the number of units scheduled. -/
theorem processor_execution_count (st : SPState) (g : Gen) (a : QuantumAtom) :
    ((SentinelProcessor.execute st g a).1).execs = st.execs + 1 ∧
    ((SentinelProcessor.execute st g a).1).cno = st.cno + 1 ∧
    ((SentinelProcessor.execute st g a).1).sym.execs = st.sym.execs + 1 ∧
    ((SentinelProcessor.execute st g a).1).refl.execs = st.refl.execs + 1 ∧
    (∀ (execs : ℕ) (g2 : Gen) (a2 : QuantumAtom),
      (CognitiveNeuralOverlay.execute execs g2 a2).1 = execs + 1) ∧
    (∀ (counters : List ℕ) (assignment : List ℕ),
      (∀ i ∈ assignment, i < counters.length) →
      (scheduleAll counters assignment).sum = counters.sum + assignment.length) :=
  ⟨rfl, rfl, rfl, rfl, fun _ _ _ => rfl,
   fun _ assignment h => sum_scheduleAll assignment _ h⟩

/-- Witness for C3: the processor counter at the freshly initialized
processor state, and five units routed to three processors. -/
theorem processor_execution_count_witness :
    ((SentinelProcessor.execute SPState.init ⟨0, 0⟩
        ⟨⟨"atom", 0⟩, Value.str "hello", CorePrimitive.INPUT, []⟩).1).execs =
      SPState.init.execs + 1 ∧
    (scheduleAll [0, 0, 0] [0, 1, 1, 2, 0]).sum = [0, 0, 0].sum + 5 := by
  have h := processor_execution_count SPState.init ⟨0, 0⟩
    ⟨⟨"atom", 0⟩, Value.str "hello", CorePrimitive.INPUT, []⟩
  exact ⟨h.1, by simpa using h.2.2.2.2.2 [0, 0, 0] [0, 1, 1, 2, 0] (by decide)⟩

theorem dkeys_dset (d : Dict) (k : String) (v : Value) :
    dkeys (dset d k v) =
      if d.any (fun kv => kv.1 = k) then dkeys d else dkeys d ++ [k] := by
  unfold dset dkeys
  split
  · rw [List.map_map]
    refine List.map_congr_left ?_
    intro kv _
    by_cases hkv : kv.1 = k <;> simp [hkv]
  · simp

theorem mem_dkeys_dset_self (d : Dict) (k : String) (v : Value) :
    k ∈ dkeys (dset d k v) := by
  rw [dkeys_dset]
  split
  · rename_i h
    simp only [List.any_eq_true] at h
    obtain ⟨kv, hmem, hk⟩ := h
    simp only [dkeys, List.mem_map]
    exact ⟨kv, hmem, of_decide_eq_true hk⟩
  · simp

theorem mem_dkeys_dset_of_mem {d : Dict} {k : String} (k2 : String) (v : Value)
    (h : k ∈ dkeys d) : k ∈ dkeys (dset d k2 v) := by
  rw [dkeys_dset]
  split <;> simp [h]

theorem cnoMeta_keys_self (vec : List ℝ) (t : ℚ) (md : Dict) :
    "neural_vec" ∈ dkeys (cnoMeta vec t md) :=
  mem_dkeys_dset_of_mem _ _ (mem_dkeys_dset_self md _ _)

theorem symMeta_keys (tags : List String) (t : ℚ) (md : Dict) (k : String)
    (h : k ∈ dkeys md) : k ∈ dkeys (symMeta tags t md) := by
  unfold symMeta
  apply mem_dkeys_dset_of_mem
  split
  · exact mem_dkeys_dset_of_mem _ _ h
  · exact h

theorem intentMeta_keys (label : String) (score : ℚ) (md : Dict) (k : String)
    (h : k ∈ dkeys md) : k ∈ dkeys (intentMeta label score md) :=
  mem_dkeys_dset_of_mem _ _ h

theorem reflMeta_keys (top : List (ℕ × ℝ)) (t : ℚ) (md : Dict) (k : String)
    (h : k ∈ dkeys md) : k ∈ dkeys (reflMeta top t md) :=
  mem_dkeys_dset_of_mem _ _ (mem_dkeys_dset_of_mem _ _ h)

theorem topicMeta_keys (md : Dict) (k : String) (h : k ∈ dkeys md) :
    k ∈ dkeys (topicMeta md) := by
  dsimp only [topicMeta]
  split
  · exact mem_dkeys_dset_of_mem _ _ h
  · exact h

theorem gemMeta_keys (merged : Value) (t : ℚ) (md : Dict) (k : String)
    (h : k ∈ dkeys md) : k ∈ dkeys (gemMeta merged t md) :=
  mem_dkeys_dset_of_mem _ _ (mem_dkeys_dset_of_mem _ _ h)

theorem primeMeta_keys (entropy stability : ℝ) (tc ut : ℕ) (md : Dict) (k : String)
    (h : k ∈ dkeys md) : k ∈ dkeys (primeMeta entropy stability tc ut md) :=
  mem_dkeys_dset_of_mem _ _ h

theorem emoMeta_keys (pos neg : ℕ) (valence : ℚ) (md : Dict) (k : String)
    (h : k ∈ dkeys md) : k ∈ dkeys (emoMeta pos neg valence md) :=
  mem_dkeys_dset_of_mem _ _ h

theorem ethMeta_keys (sensitive toxicity : Bool) (md : Dict) (k : String)
    (h : k ∈ dkeys md) : k ∈ dkeys (ethMeta sensitive toxicity md) :=
  mem_dkeys_dset_of_mem _ _ h

theorem cubeMeta_keys (signature : Value) (t : ℚ) (md : Dict) (k : String)
    (h : k ∈ dkeys md) : k ∈ dkeys (cubeMeta signature t md) :=
  mem_dkeys_dset_of_mem _ _ (mem_dkeys_dset_of_mem _ _ h)

theorem weaveMeta_keys (confidence : ℚ) (md : Dict) (k : String)
    (h : k ∈ dkeys md) : k ∈ dkeys (weaveMeta confidence md) :=
  mem_dkeys_dset_of_mem _ _ h

theorem not_mem_dkeys_filter_self (d : Dict) (k : String) :
    k ∉ dkeys (d.filter (fun kv => kv.1 ≠ k)) := by
  simp only [dkeys, List.mem_map]
  rintro ⟨kv, hmem, rfl⟩
  rw [List.mem_filter] at hmem
  simpa using hmem.2

/-- C9. For every input, the metadata of the result returned by
`SentinelCognitionGraph.process` never contains the key `neural_vec`, even
though the internal output unit of the pipeline (the atom produced by
`SentinelProcessor.execute`) always carries that key, added by the
neural-overlay stage and propagated by the metadata copy of every later stage:
the public `process` filters it out of the returned metadata. -/
theorem process_filters_neural_vec (st : SPState) (g : Gen) (data : Value)
    (a : QuantumAtom) :
    "neural_vec" ∈ dkeys ((SentinelProcessor.execute st g a).2.2).metadata ∧
    "neural_vec" ∉ dkeys ((SentinelCognitionGraph.process st g data).2.2).metadata := by
  constructor
  · dsimp only [SentinelProcessor.execute, CognitiveNeuralOverlay.execute,
      SymbolicArray.execute, IntentParserNode.execute, ReflectivePool.execute,
      TopicIndexerNode.execute, GeminiNodeStack.execute, ShannonPrimeCore.execute,
      MetatronEngine.execute, EmotionalAnalyzer.execute, EthicalGuard.execute,
      CubeCore.execute, ResponseWeaverNode.execute]
    apply mem_dkeys_dset_of_mem
    apply weaveMeta_keys
    apply cubeMeta_keys
    apply ethMeta_keys
    apply emoMeta_keys
    apply primeMeta_keys
    apply gemMeta_keys
    apply topicMeta_keys
    apply reflMeta_keys
    apply intentMeta_keys
    apply symMeta_keys
    exact cnoMeta_keys_self _ _ _
  · dsimp only [SentinelCognitionGraph.process]
    exact not_mem_dkeys_filter_self _ _

theorem storeGet_append_lt (σ τ : Store) (p : ℕ) (h : p < σ.length) :
    storeGet (σ ++ τ) p = storeGet σ p := by
  unfold storeGet
  induction σ generalizing p with
  | nil => simp at h
  | cons d ds ih =>
      cases p with
      | zero => rfl
      | succ n =>
          have hn : n < ds.length := by simpa using h
          simpa using ih n hn

theorem storeGet_append_self (σ : Store) (x : Dict) :
    storeGet (σ ++ [x]) σ.length = x := by
  unfold storeGet
  induction σ with
  | nil => rfl
  | cons d ds ih => exact ih

theorem make_id_ne_of_serial_lt (lbl : String) (g : Gen) (u : UID)
    (h : u.serial < g.fresh) : (make_id lbl g).1 ≠ u := by
  intro heq
  have : (make_id lbl g).1.serial = u.serial := congrArg UID.serial heq
  simp [make_id] at this
  omega

/-- C4. Each embedded processing stage is non-mutating on its input.  Under
the explicit-store view of metadata dictionaries: the stage allocates a
fresh dictionary holding the copy of the metadata of the input extended by the
stage keys; every pre-existing dictionary — in particular that of the input atom —
reads back unchanged; the returned unit is a new atom with a freshly
generated id, its own metadata pointer, and the data of the input.  Stated for
the two cited stages, `CognitiveNeuralOverlay` and `SymbolicArray`. -/
theorem stage_frame_effect (σ : Store) (g : Gen) (a : HAtom)
    (rules : List (String × String)) :
    (∀ p, p < σ.length →
      storeGet (CognitiveNeuralOverlay.executeStore σ g a).1 p = storeGet σ p) ∧
    (CognitiveNeuralOverlay.executeStore σ g a).2.2.data = a.data ∧
    (CognitiveNeuralOverlay.executeStore σ g a).2.2.meta = σ.length ∧
    (a.meta < σ.length →
      (CognitiveNeuralOverlay.executeStore σ g a).2.2.meta ≠ a.meta) ∧
    (a.id.serial < g.fresh →
      (CognitiveNeuralOverlay.executeStore σ g a).2.2.id ≠ a.id) ∧
    storeGet (CognitiveNeuralOverlay.executeStore σ g a).1
        (CognitiveNeuralOverlay.executeStore σ g a).2.2.meta =
      cnoMeta
        (VectorUtils.normalize ((pseudoEmbed 16 (strOf a.data)).map (fun n => (n : ℝ))))
        (g.tick : ℚ) (storeGet σ a.meta) ∧
    (∀ p, p < σ.length →
      storeGet (SymbolicArray.executeStore rules σ g a).1 p = storeGet σ p) ∧
    (SymbolicArray.executeStore rules σ g a).2.2.data = a.data ∧
    (SymbolicArray.executeStore rules σ g a).2.2.meta = σ.length ∧
    (a.meta < σ.length →
      (SymbolicArray.executeStore rules σ g a).2.2.meta ≠ a.meta) ∧
    (a.id.serial < g.fresh →
      (SymbolicArray.executeStore rules σ g a).2.2.id ≠ a.id) ∧
    storeGet (SymbolicArray.executeStore rules σ g a).1
        (SymbolicArray.executeStore rules σ g a).2.2.meta =
      symMeta (SymbolicArray.tagsFor rules (pyLower (strOf a.data))) (g.tick : ℚ)
        (storeGet σ a.meta) := by
  refine ⟨?_, rfl, rfl, ?_, ?_, ?_, ?_, rfl, rfl, ?_, ?_, ?_⟩
  · intro p hp
    exact storeGet_append_lt σ _ p hp
  · intro h heq
    simp only [CognitiveNeuralOverlay.executeStore] at heq
    omega
  · intro h
    exact make_id_ne_of_serial_lt "cno" g a.id h
  · exact storeGet_append_self σ _
  · intro p hp
    exact storeGet_append_lt σ _ p hp
  · intro h heq
    simp only [SymbolicArray.executeStore] at heq
    omega
  · intro h
    exact make_id_ne_of_serial_lt "sym" g a.id h
  · exact storeGet_append_self σ _

/-- Witness for C4: the two stages applied to a concrete one-dictionary
store; the dictionary of the input reads back unchanged and the output atom is
new (distinct id and metadata pointer). -/
theorem stage_frame_effect_witness :
    storeGet (CognitiveNeuralOverlay.executeStore [[("k", Value.str "v")]] ⟨5, 0⟩
        ⟨⟨"atom", 0⟩, Value.str "hello", CorePrimitive.INPUT, 0⟩).1 0 =
      storeGet [[("k", Value.str "v")]] 0 ∧
    (CognitiveNeuralOverlay.executeStore [[("k", Value.str "v")]] ⟨5, 0⟩
        ⟨⟨"atom", 0⟩, Value.str "hello", CorePrimitive.INPUT, 0⟩).2.2.meta ≠ 0 ∧
    (CognitiveNeuralOverlay.executeStore [[("k", Value.str "v")]] ⟨5, 0⟩
        ⟨⟨"atom", 0⟩, Value.str "hello", CorePrimitive.INPUT, 0⟩).2.2.id ≠ ⟨"atom", 0⟩ ∧
    (SymbolicArray.executeStore SymbolicArray.defaultRules [[("k", Value.str "v")]] ⟨5, 0⟩
        ⟨⟨"atom", 0⟩, Value.str "hello", CorePrimitive.INPUT, 0⟩).2.2.id ≠ ⟨"atom", 0⟩ := by
  have h := stage_frame_effect [[("k", Value.str "v")]] ⟨5, 0⟩
    ⟨⟨"atom", 0⟩, Value.str "hello", CorePrimitive.INPUT, 0⟩ SymbolicArray.defaultRules
  exact ⟨h.1 0 (by decide), h.2.2.2.1 (by decide), h.2.2.2.2.1 (by decide),
    h.2.2.2.2.2.2.2.2.2.2.1 (by decide)⟩
